import Mathlib

/-!
A verification development for the quiz-app game session engine
(Go backend, packages `internal/game`, `internal/db`, `internal/cache`,
`internal/models`).

The Go code is shallowly embedded: machine integers (`int`, `int64`) are
modelled as `Int`, `float64` arithmetic is modelled exactly over `Rat`
(the theorems invoke the float-dependent definitions only at concrete
inputs whose binary64 intermediates are exact, or under explicit
`binary64Exact` hypotheses that delimit the regime where the rational
model agrees with the Go float computation; see `CalculateScore` and
`binary64Exact`), DynamoDB tables and the Redis sorted set are
modelled as association lists inside a single state record, and Go
panics (nil dereference, out-of-range indexing/slicing) are modelled as
a distinguished `crash` outcome.
-/

/-- Truncation toward zero of a rational, the behaviour of the Go
conversion `int(f)` applied to a `float64`: ceiling for negative values,
floor otherwise. -/
def truncRat (q : ℚ) : ℤ := if q < 0 then ⌈q⌉ else ⌊q⌋

/-- Embedding of `CalculateScore` from `internal/game/broadcast.go`
(scoring file): incorrect answers earn 0; a non-positive time limit earns
exactly the base points; otherwise the time taken is clamped into
`[0, timeLimitMs]` and a bonus of `int(float64(basePoints) * 0.5 *
(1 - timeRatio))` is added.  The `float64` arithmetic is modelled by
exact arithmetic over `Rat`, the Go `int(...)` conversion by `truncRat`.
This is the exact-arithmetic idealization of the binary64 code: it
coincides with the program exactly when every intermediate value the Go
code computes is exactly representable in binary64 (each rounding is
then the identity) and every integer stays far below `2 ^ 63`.  The
theorems below use it only in that regime: at concrete inputs such as
`(true, 5000, 20000, 1000)`, whose intermediates `1/4`, `3/4` and `375`
are all binary64-exact, or under explicit `binary64Exact` hypotheses;
outside the regime (for example `basePoints = 2 ^ 53 + 3`, where
`float64` conversion already rounds) the real program diverges from
both this model and the spec reference. -/
def CalculateScore (isCorrect : Bool) (timeTakenMs timeLimitMs : ℤ)
    (basePoints : ℤ) : ℤ :=
  if !isCorrect then 0
  else if timeLimitMs ≤ 0 then basePoints
  else
    let t1 : ℤ := if timeTakenMs < 0 then 0 else timeTakenMs
    let t2 : ℤ := if t1 > timeLimitMs then timeLimitMs else t1
    let timeRatio : ℚ := (t2 : ℚ) / (timeLimitMs : ℚ)
    let bonus : ℤ := truncRat ((basePoints : ℚ) * 0.5 * (1 - timeRatio))
    basePoints + bonus

/-- `models.Option`: an answer option (id and text). -/
structure QOption where
  id : String
  text : String
deriving DecidableEq, Repr

/-- `models.Question`. -/
structure Question where
  questionId : String
  text : String
  options : List QOption
  correctOptionId : String
  timeLimitSeconds : ℤ
  points : ℤ
deriving DecidableEq, Repr

/-- `models.Quiz` (timestamps elided: no claim mentions them). -/
structure Quiz where
  quizId : String
  hostUserId : String
  title : String
  description : String
  questions : List Question
deriving DecidableEq, Repr

/-- `models.SessionStatus`. -/
inductive SessionStatus where
  | LOBBY
  | ACTIVE
  | FINISHED
deriving DecidableEq, Repr

/-- `models.Session` (PIN and timestamps elided: no claim mentions them). -/
structure Session where
  sessionId : String
  quizId : String
  hostUserId : String
  status : SessionStatus
  currentQuestionIndex : ℤ
deriving DecidableEq, Repr

/-- `models.PlayerRole`. -/
inductive PlayerRole where
  | HOST
  | PLAYER
deriving DecidableEq, Repr

/-- `models.Player`: one registered connection (connect time and TTL
elided: no claim mentions them). -/
structure Player where
  sessionId : String
  connectionId : String
  userId : String
  nickname : String
  role : PlayerRole
deriving DecidableEq, Repr

/-- `models.Answer` (timestamp elided). -/
structure Answer where
  sessionId : String
  userIdQuestionId : String
  questionId : String
  userId : String
  selectedOptionId : String
  isCorrect : Bool
  timeTakenMs : ℤ
  pointsEarned : ℤ
deriving DecidableEq, Repr

/-- `models.PlayerScore`, a leaderboard display entry.  The `float64`
score is modelled as `Int`: every score the engine ever writes is an
integer point total far below `2 ^ 53`, where binary64 addition is
exact. -/
structure PlayerScore where
  userId : String
  nickname : String
  score : ℤ
  rank : ℤ
deriving DecidableEq, Repr

/-- `auth.Claims` as mirrored in the game package. -/
structure Claims where
  userId : String
  email : String
  username : String
  role : String
deriving DecidableEq, Repr

/-! ## Store state

The DynamoDB tables (sessions, quizzes, connections, answers) and the
Redis structures (per-session sorted score set and nickname hash) are
modelled as association lists inside one state record.  I/O failures of
the stores are not modelled: every read returns the data that is
present, as the claims under study are about logic, not about outages. -/

structure St where
  sessions : List Session
  quizzes : List Quiz
  connections : List Player
  answers : List Answer
  scores : List ((String × String) × ℤ)
  nicknames : List ((String × String) × String)
deriving DecidableEq, Repr

/-- `db.GetSession`: primary-key lookup, `nil` when absent. -/
def getSession (st : St) (sessionId : String) : Option Session :=
  st.sessions.find? (fun s => s.sessionId == sessionId)

/-- `db.GetQuiz`: primary-key lookup, `nil` when absent. -/
def getQuiz (st : St) (quizId : String) : Option Quiz :=
  st.quizzes.find? (fun q => q.quizId == quizId)

/-- `db.GetSessionByConnectionID`: GSI lookup by connection id; the Go
function returns an error when no item matches, modelled as `none`. -/
def getConnectionByConnectionId (st : St) (connectionId : String) :
    Option Player :=
  st.connections.find? (fun p => p.connectionId == connectionId)

/-- `db.GetConnectionsBySession`. -/
def getConnectionsBySession (st : St) (sessionId : String) : List Player :=
  st.connections.filter (fun p => p.sessionId == sessionId)

/-- `db.GetPlayerCountBySession`: counts the non-host connections of a
session. -/
def getPlayerCountBySession (st : St) (sessionId : String) : ℤ :=
  ((getConnectionsBySession st sessionId).filter
    (fun p => p.role == PlayerRole.PLAYER)).length

/-- `db.PutConnection`: an unconditional `PutItem` keyed on
`(sessionId, connectionId)` — it overwrites any item with the same
key. -/
def putConnection (st : St) (p : Player) : St :=
  { st with connections :=
      p :: st.connections.filter (fun q =>
        !(q.sessionId == p.sessionId && q.connectionId == p.connectionId)) }

/-- `db.DeleteConnection`. -/
def deleteConnection (st : St) (sessionId connectionId : String) : St :=
  { st with connections :=
      st.connections.filter (fun q =>
        !(q.sessionId == sessionId && q.connectionId == connectionId)) }

/-- `db.GetAnswer`: consistent read on the composite key
`(sessionId, userId # questionId)`. -/
def getAnswer (st : St) (sessionId userId questionId : String) :
    Option Answer :=
  st.answers.find? (fun a =>
    a.sessionId == sessionId &&
      a.userIdQuestionId == (userId ++ "#" ++ questionId))

/-- `db.PutAnswer`: an unconditional `PutItem` keyed on
`(sessionId, userIdQuestionId)`.  There is no
`attribute_not_exists` condition expression in the source, so an
existing item with the same key is silently overwritten. -/
def putAnswer (st : St) (a : Answer) : St :=
  { st with answers :=
      a :: st.answers.filter (fun b =>
        !(b.sessionId == a.sessionId &&
          b.userIdQuestionId == a.userIdQuestionId)) }

/-- `db.UpdateSessionStatus`: an `UpdateItem` that sets `status` and
`currentQuestionIndex`.  The source attaches no `ConditionExpression`,
so the write applies whatever the stored status is and never reports a
precondition failure (timestamps elided). -/
def updateSessionStatus (st : St) (sessionId : String)
    (status : SessionStatus) (questionIndex : ℤ) : St :=
  { st with sessions :=
      st.sessions.map (fun s =>
        if s.sessionId == sessionId then
          { s with status := status, currentQuestionIndex := questionIndex }
        else s) }

/-! ## Outcomes

Go functions that can return an error are modelled with `err`; Go code
paths that panic (nil-pointer dereference, out-of-range slice indexing)
are modelled with `crash`.  A crash aborts the handler: it is not a
clean error return. -/

inductive Outcome (α : Type) where
  | ok (val : α)
  | err (msg : String)
  | crash (msg : String)
deriving DecidableEq, Repr

/-! ## Leaderboard cache (`internal/cache/leaderboard.go`) -/

/-- `cache.UpsertScore`: Redis `ZADD`, setting the member score
absolutely (inserting the member if needed). -/
def upsertScore (st : St) (sessionId userId : String) (score : ℤ) : St :=
  { st with scores :=
      ((sessionId, userId), score) ::
        st.scores.filter (fun e => !(e.1 == (sessionId, userId))) }

/-- `cache.IncrementScore`: Redis `ZINCRBY`, an atomic add that creates
the member with the delta as score when absent. -/
def incrementScore (st : St) (sessionId userId : String) (delta : ℤ) : St :=
  match st.scores.find? (fun e => e.1 == (sessionId, userId)) with
  | some e =>
      { st with scores :=
          ((sessionId, userId), e.2 + delta) ::
            st.scores.filter (fun f => !(f.1 == (sessionId, userId))) }
  | none =>
      { st with scores := ((sessionId, userId), delta) :: st.scores }

/-- `cache.SetNickname`: Redis `HSET`. -/
def setNickname (st : St) (sessionId userId nickname : String) : St :=
  { st with nicknames :=
      ((sessionId, userId), nickname) ::
        st.nicknames.filter (fun e => !(e.1 == (sessionId, userId))) }

/-- The members of a session's sorted set, as (member, score) pairs. -/
def sessionScores (st : St) (sessionId : String) : List (String × ℤ) :=
  st.scores.filterMap (fun e =>
    if e.1.1 == sessionId then some (e.1.2, e.2) else none)

/-- The `ZREVRANGE` order: by score descending, ties by member string
descending (the reverse of the lexicographic tie order of `ZRANGE`).
`zrevBefore a b` holds when `a` may come before `b`. -/
def zrevBefore (a b : String × ℤ) : Bool :=
  b.2 < a.2 || (a.2 == b.2 && decide (b.1 ≤ a.1))

/-- Insertion step of the sort used to model the Redis ordering. -/
def zrevInsert (x : String × ℤ) : List (String × ℤ) → List (String × ℤ)
  | [] => [x]
  | y :: ys => if zrevBefore x y then x :: y :: ys else y :: zrevInsert x ys

/-- The Redis sorted set in `ZREVRANGE` order. -/
def zrevSorted (l : List (String × ℤ)) : List (String × ℤ) :=
  l.foldr zrevInsert []

/-- Nickname hash lookup; a missing field reads as the empty string,
like indexing a Go map. -/
def nicknameOf (st : St) (sessionId userId : String) : String :=
  match st.nicknames.find? (fun e => e.1 == (sessionId, userId)) with
  | some e => e.2
  | none => ""

/-- The per-entry loop body of `cache.GetTopN`: resolve each member's
nickname, falling back to `userID[:8]` — a Go slice expression that
panics when the string is shorter than 8 bytes — and attach the
1-indexed rank.  (Nicknames and user ids in this model are compared
by character; all concrete strings used below are ASCII, where Go's
byte indexing agrees.) -/
def resolveEntries (st : St) (sessionId : String) :
    List (String × ℤ) → ℤ → Outcome (List PlayerScore)
  | [], _ => .ok []
  | (userId, score) :: rest, i =>
    let nickname := nicknameOf st sessionId userId
    if nickname == "" && userId.length < 8 then
      .crash "runtime error: slice bounds out of range"
    else
      let nickname := if nickname == "" then
        (userId.toList.take 8).asString else nickname
      match resolveEntries st sessionId rest (i + 1) with
      | .ok tail =>
          .ok ({ userId := userId, nickname := nickname, score := score,
                 rank := i } :: tail)
      | .err e => .err e
      | .crash e => .crash e

/-- The Redis index range `[0, n-1]` of `ZRevRangeWithScores`: a
negative stop counts from the end of the set, and a stop that is still
negative after that adjustment yields the empty range. -/
def zrevRangeTake (l : List (String × ℤ)) (n : ℤ) : List (String × ℤ) :=
  let stop : ℤ := if n - 1 < 0 then (l.length : ℤ) + (n - 1) else n - 1
  if stop < 0 then [] else l.take (stop.toNat + 1)

/-- `cache.GetTopN`. -/
def getTopN (st : St) (sessionId : String) (n : ℤ) :
    Outcome (List PlayerScore) :=
  let results := zrevRangeTake (zrevSorted (sessionScores st sessionId)) n
  resolveEntries st sessionId results 1

/-- Helper for `ZREVRANK`: the index of a member in the sorted order. -/
def zrevFindIdx (userId : String) : List (String × ℤ) → ℤ → Option ℤ
  | [], _ => none
  | (u, _) :: rest, i =>
    if u == userId then some i else zrevFindIdx userId rest (i + 1)

/-- `cache.GetPlayerRank`: `ZREVRANK` converted to a 1-indexed rank; the
Go function returns `-1` together with an error when the member is
absent, and its callers in the engine ignore the error. -/
def getPlayerRank (st : St) (sessionId userId : String) : ℤ :=
  match zrevFindIdx userId (zrevSorted (sessionScores st sessionId)) 0 with
  | some r => r + 1
  | none => -1

/-- `cache.GetPlayerScore`: `ZSCORE`, returning 0 for an absent
member. -/
def getPlayerScore (st : St) (sessionId userId : String) : ℤ :=
  match st.scores.find? (fun e => e.1 == (sessionId, userId)) with
  | some e => e.2
  | none => 0

/-! ## Outbound events and payloads (`internal/models/ws_event.go`) -/

/-- `models.QuestionPayload`: the outbound question event payload.  Its
fields are exactly those of the Go struct — there is no field for the
correct option. -/
structure QuestionPayload where
  questionIndex : ℤ
  totalQuestions : ℤ
  text : String
  options : List QOption
  timeLimitMs : ℤ
  points : ℤ
deriving DecidableEq, Repr

/-- `models.AnswerResultPayload` (unicast to the submitter). -/
structure AnswerResultPayload where
  isCorrect : Bool
  pointsEarned : ℤ
  totalScore : ℤ
  rank : ℤ
  correctOption : String
deriving DecidableEq, Repr

/-- The outbound events the engine emits, with their payloads. -/
inductive WSEvent where
  | playerJoined (nickname : String) (playerCount : ℤ)
  | gameStarted (totalQuestions : ℤ)
  | question (payload : QuestionPayload)
  | answerResult (payload : AnswerResultPayload)
  | questionEnded (correctOptionId : String) (leaderboard : List PlayerScore)
  | gameOver (finalLeaderboard : List PlayerScore)
deriving DecidableEq, Repr

/-- An emission attempt: a broadcast to a session or a unicast to one
connection. -/
inductive Emitted where
  | toSession (sessionId : String) (event : WSEvent)
  | toConn (connectionId : String) (event : WSEvent)
deriving DecidableEq, Repr

/-! ## Broadcaster (`internal/game/broadcast.go`)

The broadcaster dispatches on the environment: in local mode with a hub
attached it delivers through the in-process hub, whose per-connection
`WriteMessage` outcome is modelled by a `sendOk` predicate; otherwise it
takes the production path, which fans out to the registered connections
of the session, prunes a connection whose send failed, and ignores
delivery failures in its own return value.  (The production
`SendToConnection` is a stub in the source: it logs and returns `nil`.)
JSON marshalling of the outbound structs cannot fail and is not
modelled. -/

/-- The local hub state: `connections` maps connection id to session id
and `sessions` maps session id to the member connection ids, as the two
Go maps kept in sync by `Hub.Register` and `Hub.Unregister`. -/
structure Hub where
  connections : List (String × String)
  sessions : List (String × List String)

/-- The broadcast environment: the `ENV` name, the optional local hub,
and the transport-level delivery outcome per connection id. -/
structure NetEnv where
  envName : String
  hub : Option Hub
  sendOk : String → Bool

/-- `Hub.SendToConnection`: an error for a connection id the hub does
not know, otherwise the transport write outcome. -/
def hubSendToConnection (h : Hub) (sendOk : String → Bool)
    (connectionId : String) : Except String Unit :=
  match h.connections.find? (fun e => e.1 == connectionId) with
  | none => .error ("connection " ++ connectionId ++ " not found in hub")
  | some _ => if sendOk connectionId then .ok () else .error "write failed"

/-- `Hub.BroadcastToSession`: sends to every member connection and
returns the LAST send error — a session unknown to the hub yields `nil`,
but a failed delivery makes the whole call return that failure. -/
def hubBroadcastToSession (h : Hub) (sendOk : String → Bool)
    (sessionId : String) : Except String Unit :=
  match h.sessions.find? (fun e => e.1 == sessionId) with
  | none => .ok ()
  | some e =>
      e.2.foldl (fun acc cid =>
        match hubSendToConnection h sendOk cid with
        | .ok _ => acc
        | .error msg => .error msg) (.ok ())

/-- `Broadcaster.SendToConnection`. -/
def broadcasterSend (env : NetEnv) (connectionId : String) :
    Except String Unit :=
  if env.envName == "local" then
    match env.hub with
    | some h => hubSendToConnection h env.sendOk connectionId
    | none => .ok ()
  else .ok ()

/-- `Broadcaster.BroadcastToSession`: the production path deletes from
the connections table every connection whose send failed and then
returns `nil`; the local path returns the hub result and leaves the
store untouched. -/
def broadcasterBroadcast (env : NetEnv) (st : St) (sessionId : String) :
    St × Except String Unit :=
  if env.envName == "local" then
    match env.hub with
    | some h => (st, hubBroadcastToSession h env.sendOk sessionId)
    | none =>
        let conns := getConnectionsBySession st sessionId
        let stOut := conns.foldl (fun acc c =>
          match broadcasterSend env c.connectionId with
          | .ok _ => acc
          | .error _ => deleteConnection acc sessionId c.connectionId) st
        (stOut, .ok ())
  else
    let conns := getConnectionsBySession st sessionId
    let stOut := conns.foldl (fun acc c =>
      match broadcasterSend env c.connectionId with
      | .ok _ => acc
      | .error _ => deleteConnection acc sessionId c.connectionId) st
    (stOut, .ok ())

/-! ## Game engine (`internal/game/engine.go`) -/

/-- Go slice indexing with an `int` index: `none` models the
out-of-range panic. -/
def listGetInt {α : Type} (xs : List α) (i : ℤ) : Option α :=
  if i < 0 then none else xs.get? i.toNat

/-- The result of one engine handler invocation: the store state after
it, the emission attempts in order, and the Go return value (or a
crash). -/
structure HandlerOut where
  st : St
  events : List Emitted
  result : Outcome Unit
deriving DecidableEq, Repr

/-- `models.JoinSessionPayload`. -/
structure JoinSessionPayload where
  sessionId : String
  nickname : String
deriving DecidableEq, Repr

/-- `models.SubmitAnswerPayload`. -/
structure SubmitAnswerPayload where
  questionId : String
  selectedOptionId : String
  timeTakenMs : ℤ
deriving DecidableEq, Repr

/-- Converts the broadcaster result into the handler return value, as
the Go handlers do when they `return` the broadcast error. -/
def outcomeOfExcept : Except String Unit → Outcome Unit
  | .ok _ => .ok ()
  | .error e => .err e

/-- `Engine.HandleJoinSession`: validates the nickname, requires the
session to exist in LOBBY and the player count to be under 2000,
registers the connection under the user id of the context claims —
`"anonymous"` when the context carries none — initialises the
leaderboard score to 0, sets the nickname (cache failures are logged,
not modelled), and returns the result of broadcasting `player_joined`.
(Go measures the nickname in bytes; this model counts characters, which
agrees on ASCII.) -/
def handleJoinSession (env : NetEnv) (st : St) (claims : Option Claims)
    (connectionId : String) (p : JoinSessionPayload) : HandlerOut :=
  if p.nickname.length == 0 || p.nickname.length > 20 then
    ⟨st, [], .err "nickname must be between 1 and 20 characters"⟩
  else
    match getSession st p.sessionId with
    | none => ⟨st, [], .err "session not found"⟩
    | some s =>
      if s.status != SessionStatus.LOBBY then
        ⟨st, [], .err "game already started"⟩
      else
        let count := getPlayerCountBySession st p.sessionId
        if count ≥ 2000 then
          ⟨st, [], .err "session is full (max 2000 players)"⟩
        else
          let userId := match claims with
            | none => "anonymous"
            | some c => c.userId
          let st := putConnection st
            ⟨p.sessionId, connectionId, userId, p.nickname,
              PlayerRole.PLAYER⟩
          let st := upsertScore st p.sessionId userId 0
          let st := setNickname st p.sessionId userId p.nickname
          let bc := broadcasterBroadcast env st p.sessionId
          ⟨bc.1,
            [.toSession p.sessionId (.playerJoined p.nickname (count + 1))],
            outcomeOfExcept bc.2⟩

/-- The payload `Engine.sendQuestion` builds from
`quiz.Questions[index]`: index, total, text, options, time limit in ms
and points — no correct-option field.  `none` models the out-of-range
panic of the indexing. -/
def sendQuestionPayload (quiz : Quiz) (index : ℤ) : Option QuestionPayload :=
  (listGetInt quiz.questions index).map fun q =>
    ⟨index, quiz.questions.length, q.text, q.options,
      q.timeLimitSeconds * 1000, q.points⟩

/-- `Engine.sendQuestion`: broadcasts the `question` event built by
`sendQuestionPayload`. -/
def sendQuestion (env : NetEnv) (st : St) (sessionId : String)
    (quiz : Quiz) (index : ℤ) (acc : List Emitted) : HandlerOut :=
  match sendQuestionPayload quiz index with
  | none => ⟨st, acc, .crash "runtime error: index out of range"⟩
  | some payload =>
    let bc := broadcasterBroadcast env st sessionId
    ⟨bc.1, acc ++ [.toSession sessionId (.question payload)],
      outcomeOfExcept bc.2⟩

/-- The read phase of `Engine.HandleStartGame`, everything before the
status write: session must exist and be in LOBBY (checked FIRST), the
caller's registry role must be HOST, and the quiz must exist. -/
def startGameCheck (st : St) (connectionId sessionId : String) :
    Except String (Session × Quiz) :=
  match getSession st sessionId with
  | none => .error "session not found"
  | some s =>
    if s.status != SessionStatus.LOBBY then .error "game already started"
    else
      match getConnectionByConnectionId st connectionId with
      | none => .error "failed to verify host"
      | some conn =>
        if conn.role != PlayerRole.HOST then
          .error "only the host can start the game"
        else
          match getQuiz st s.quizId with
          | none => .error "quiz not found"
          | some quiz => .ok (s, quiz)

/-- The write phase of `Engine.HandleStartGame`: the unconditional
status write to ACTIVE with question index 0, the `game_started`
broadcast (whose failure is returned, skipping the question), then the
first question. -/
def startGameFinish (env : NetEnv) (st : St) (sessionId : String)
    (quiz : Quiz) : HandlerOut :=
  let st := updateSessionStatus st sessionId SessionStatus.ACTIVE 0
  let bc := broadcasterBroadcast env st sessionId
  let ev := Emitted.toSession sessionId
    (.gameStarted quiz.questions.length)
  match bc.2 with
  | .error e => ⟨bc.1, [ev], .err e⟩
  | .ok _ => sendQuestion env bc.1 sessionId quiz 0 [ev]

/-- `Engine.HandleStartGame` is the read phase followed by the write
phase. -/
def handleStartGame (env : NetEnv) (st : St) (connectionId : String)
    (sessionId : String) : HandlerOut :=
  match startGameCheck st connectionId sessionId with
  | .error e => ⟨st, [], .err e⟩
  | .ok sq => startGameFinish env st sessionId sq.2

/-- The data the read phase of `Engine.HandleSubmitAnswer` feeds into
its write phase. -/
structure SubmitInfo where
  conn : Player
  question : Question
  isCorrect : Bool
  pointsEarned : ℤ
deriving DecidableEq, Repr

/-- The read phase of `Engine.HandleSubmitAnswer`: resolve the caller's
connection, require the session ACTIVE, reject when an Answer for
(session, user, question) already exists, load the quiz (a missing quiz
is a nil dereference), find the question, and compute the score.  No
write has happened yet. -/
def submitAnswerCheck (st : St) (connectionId : String)
    (p : SubmitAnswerPayload) : Outcome SubmitInfo :=
  match getConnectionByConnectionId st connectionId with
  | none => .err "failed to find connection"
  | some conn =>
    match getSession st conn.sessionId with
    | none => .err "game is not active"
    | some s =>
      if s.status != SessionStatus.ACTIVE then .err "game is not active"
      else
        match getAnswer st conn.sessionId conn.userId p.questionId with
        | some _ => .err "already answered this question"
        | none =>
          match getQuiz st s.quizId with
          | none => .crash "runtime error: invalid memory address"
          | some quiz =>
            match quiz.questions.find?
                (fun q => q.questionId == p.questionId) with
            | none => .err "question not found"
            | some q =>
              let isCorrect := p.selectedOptionId == q.correctOptionId
              let timeLimitMs := q.timeLimitSeconds * 1000
              let pts := CalculateScore isCorrect p.timeTakenMs
                timeLimitMs q.points
              .ok ⟨conn, q, isCorrect, pts⟩

/-- The Answer persist step of `Engine.HandleSubmitAnswer`: the
unconditional `PutAnswer` write. -/
def submitAnswerWrite (st : St) (info : SubmitInfo)
    (p : SubmitAnswerPayload) : St :=
  putAnswer st
    ⟨info.conn.sessionId, info.conn.userId ++ "#" ++ p.questionId,
      p.questionId, info.conn.userId, p.selectedOptionId, info.isCorrect,
      p.timeTakenMs, info.pointsEarned⟩

/-- The leaderboard step of `Engine.HandleSubmitAnswer`: increment only
when points were earned. -/
def submitAnswerIncr (st : St) (info : SubmitInfo) : St :=
  if info.pointsEarned > 0 then
    incrementScore st info.conn.sessionId info.conn.userId info.pointsEarned
  else st

/-- `Engine.HandleSubmitAnswer`: read phase, Answer write, leaderboard
increment, then the private `answer_result` unicast (carrying rank,
total score and the correct option) whose send result is returned. -/
def handleSubmitAnswer (env : NetEnv) (st : St) (connectionId : String)
    (p : SubmitAnswerPayload) : HandlerOut :=
  match submitAnswerCheck st connectionId p with
  | .err e => ⟨st, [], .err e⟩
  | .crash e => ⟨st, [], .crash e⟩
  | .ok info =>
    let st := submitAnswerWrite st info p
    let st := submitAnswerIncr st info
    let rank := getPlayerRank st info.conn.sessionId info.conn.userId
    let total := getPlayerScore st info.conn.sessionId info.conn.userId
    let payload : AnswerResultPayload :=
      ⟨info.isCorrect, info.pointsEarned, total, rank,
        info.question.correctOptionId⟩
    ⟨st, [.toConn connectionId (.answerResult payload)],
      outcomeOfExcept (broadcasterSend env connectionId)⟩

/-- `Engine.endGame`: the unconditional status write to FINISHED with
question index −1, the top-100 leaderboard read (its clean error is
ignored, a crash propagates), and the `game_over` broadcast whose
failure is returned.  The asynchronous Redis teardown goroutine has no
observable effect on this state and is not modelled. -/
def endGame (env : NetEnv) (st : St) (sessionId : String)
    (acc : List Emitted) : HandlerOut :=
  let st := updateSessionStatus st sessionId SessionStatus.FINISHED (-1)
  match getTopN st sessionId 100 with
  | .crash e => ⟨st, acc, .crash e⟩
  | .err _ =>
    let bc := broadcasterBroadcast env st sessionId
    ⟨bc.1, acc ++ [.toSession sessionId (.gameOver [])],
      outcomeOfExcept bc.2⟩
  | .ok lb =>
    let bc := broadcasterBroadcast env st sessionId
    ⟨bc.1, acc ++ [.toSession sessionId (.gameOver lb)],
      outcomeOfExcept bc.2⟩

/-- `Engine.HandleNextQuestion`: the host check comes first; the session
read is not nil-checked (a missing session is a nil dereference) and its
status is NOT validated; the quiz read is not nil-checked either; the
top-10 leaderboard read ignores clean errors; then
`quiz.Questions[session.CurrentQuestionIndex]` — an out-of-range panic
when the stored index is −1 (FINISHED) or past the end — the
`question_ended` broadcast (result discarded), and either the end
transition or the index advance plus the next question. -/
def handleNextQuestion (env : NetEnv) (st : St) (connectionId : String)
    (sessionId : String) : HandlerOut :=
  match getConnectionByConnectionId st connectionId with
  | none => ⟨st, [], .err "failed to verify host"⟩
  | some conn =>
    if conn.role != PlayerRole.HOST then
      ⟨st, [], .err "only the host can advance questions"⟩
    else
      match getSession st sessionId with
      | none => ⟨st, [], .crash "runtime error: invalid memory address"⟩
      | some s =>
        match getQuiz st s.quizId with
        | none => ⟨st, [], .crash "runtime error: invalid memory address"⟩
        | some quiz =>
          let nextIndex := s.currentQuestionIndex + 1
          match getTopN st sessionId 10 with
          | .crash e => ⟨st, [], .crash e⟩
          | .err _ =>
            match listGetInt quiz.questions s.currentQuestionIndex with
            | none => ⟨st, [], .crash "runtime error: index out of range"⟩
            | some curQ =>
              let ev := Emitted.toSession sessionId
                (.questionEnded curQ.correctOptionId [])
              let bc := broadcasterBroadcast env st sessionId
              if nextIndex ≥ (quiz.questions.length : ℤ) then
                endGame env bc.1 sessionId [ev]
              else
                let st2 := updateSessionStatus bc.1 sessionId
                  SessionStatus.ACTIVE nextIndex
                sendQuestion env st2 sessionId quiz nextIndex [ev]
          | .ok lb =>
            match listGetInt quiz.questions s.currentQuestionIndex with
            | none => ⟨st, [], .crash "runtime error: index out of range"⟩
            | some curQ =>
              let ev := Emitted.toSession sessionId
                (.questionEnded curQ.correctOptionId lb)
              let bc := broadcasterBroadcast env st sessionId
              if nextIndex ≥ (quiz.questions.length : ℤ) then
                endGame env bc.1 sessionId [ev]
              else
                let st2 := updateSessionStatus bc.1 sessionId
                  SessionStatus.ACTIVE nextIndex
                sendQuestion env st2 sessionId quiz nextIndex [ev]

/-- `Engine.HandleEndGame`: host check, then the end transition. -/
def handleEndGame (env : NetEnv) (st : St) (connectionId : String)
    (sessionId : String) : HandlerOut :=
  match getConnectionByConnectionId st connectionId with
  | none => ⟨st, [], .err "failed to verify host"⟩
  | some conn =>
    if conn.role != PlayerRole.HOST then
      ⟨st, [], .err "only the host can end the game"⟩
    else endGame env st sessionId []

/-! ## Concrete fixtures

A one-question quiz (correct option `optA`, 20 s, 1000 points), an
ACTIVE session on it, and two live connections that belong to the same
player identity. -/

def q1ex : Question :=
  ⟨"q1", "Which option?", [⟨"optA", "A"⟩, ⟨"optB", "B"⟩], "optA", 20, 1000⟩

def quiz1ex : Quiz := ⟨"quiz1", "host-user", "Demo quiz", "demo", [q1ex]⟩

def sess1ex : Session :=
  ⟨"s1", "quiz1", "host-user", SessionStatus.ACTIVE, 0⟩

def connAex : Player := ⟨"s1", "cA", "player-one", "Alice", PlayerRole.PLAYER⟩

def connBex : Player := ⟨"s1", "cB", "player-one", "Alice", PlayerRole.PLAYER⟩

def st1ex : St :=
  ⟨[sess1ex], [quiz1ex], [connAex, connBex], [],
    [(("s1", "player-one"), 0)], [(("s1", "player-one"), "Alice")]⟩

def plex : SubmitAnswerPayload := ⟨"q1", "optA", 5000⟩

def infoAex : SubmitInfo := ⟨connAex, q1ex, true, 1375⟩

def infoBex : SubmitInfo := ⟨connBex, q1ex, true, 1375⟩

/-- A production-mode broadcast environment whose transport always
delivers. -/
def envProd : NetEnv := ⟨"production", none, fun _ => true⟩

def ansAex : Answer :=
  ⟨"s1", "player-one#q1", "q1", "player-one", "optA", true, 5000, 1375⟩

/-- The store after one successful submission through connection
`cA`. -/
def stAex : St :=
  ⟨[sess1ex], [quiz1ex], [connAex, connBex], [ansAex],
    [(("s1", "player-one"), 1375)], [(("s1", "player-one"), "Alice")]⟩

/-- The store after the racy interleaving: both read phases saw no
existing Answer on `st1ex`, then write A, increment A, write B,
increment B were applied in that order. -/
def raceStEx : St :=
  submitAnswerIncr
    (submitAnswerWrite
      (submitAnswerIncr (submitAnswerWrite st1ex infoAex plex) infoAex)
      infoBex plex)
    infoBex

lemma calc1375 : CalculateScore true 5000 20000 1000 = 1375 := by
  norm_num [CalculateScore, truncRat]

/-- C2: `PutAnswer` is an unconditional `PutItem` and the duplicate
check is a separate read, so two submissions for the same
(session, player, question) whose read phases both run before either
write phase both pass the duplicate check; the interleaved writes leave
exactly one stored Answer (the second overwrites the first under the
same composite key) but increment the leaderboard twice, to 2750
instead of 1375.  Sequentially the second call is cleanly rejected with
no state change, as the claim describes. -/
theorem submitAnswer_concurrent_double_increment :
    submitAnswerCheck st1ex "cA" plex = Outcome.ok infoAex ∧
    submitAnswerCheck st1ex "cB" plex = Outcome.ok infoBex ∧
    handleSubmitAnswer envProd st1ex "cA" plex =
      ⟨stAex,
        [.toConn "cA" (.answerResult ⟨true, 1375, 1375, 1, "optA"⟩)],
        .ok ()⟩ ∧
    handleSubmitAnswer envProd stAex "cB" plex =
      ⟨stAex, [], .err "already answered this question"⟩ ∧
    (raceStEx.answers.filter (fun a =>
      a.sessionId == "s1" && a.userIdQuestionId == "player-one#q1")).length
        = 1 ∧
    getPlayerScore raceStEx "s1" "player-one" = 2750 := by
  have hcheckA : submitAnswerCheck st1ex "cA" plex =
      Outcome.ok ⟨connAex, q1ex, true, CalculateScore true 5000 20000 1000⟩ :=
    rfl
  have hcheckB : submitAnswerCheck st1ex "cB" plex =
      Outcome.ok ⟨connBex, q1ex, true, CalculateScore true 5000 20000 1000⟩ :=
    rfl
  rw [calc1375] at hcheckA hcheckB
  refine ⟨hcheckA, hcheckB, ?_, by decide, by decide, by decide⟩
  simp only [handleSubmitAnswer, hcheckA]
  decide

/-! More fixtures: a LOBBY session with its host connection, a FINISHED
session, and a non-host caller. -/

def sessLobbyEx : Session :=
  ⟨"s1", "quiz1", "host-user", SessionStatus.LOBBY, 0⟩

def hostConnEx : Player := ⟨"s1", "h1", "host-user", "Host", PlayerRole.HOST⟩

def stLobbyEx : St := ⟨[sessLobbyEx], [quiz1ex], [hostConnEx], [], [], []⟩

/-- The store after the LOBBY → ACTIVE write. -/
def stActiveEx : St :=
  ⟨[⟨"s1", "quiz1", "host-user", SessionStatus.ACTIVE, 0⟩], [quiz1ex],
    [hostConnEx], [], [], []⟩

/-- The outbound payload of the first question of `quiz1ex`. -/
def qPayloadEx : QuestionPayload :=
  ⟨0, 1, "Which option?", [⟨"optA", "A"⟩, ⟨"optB", "B"⟩], 20000, 1000⟩

/-- C3: `UpdateSessionStatus` attaches no condition expression, so the
status write succeeds whatever the stored status is.  Two StartGame
calls whose read phases both saw LOBBY both complete their write phase:
the second applies the transition again and rebroadcasts `game_started`
and the first question with an `ok` result instead of surfacing a
failed-precondition error.  Only a replay whose read phase runs after
the first write is cleanly rejected with "game already started". -/
theorem startGame_unconditional_write_double_transition :
    startGameCheck stLobbyEx "h1" "s1" = .ok (sessLobbyEx, quiz1ex) ∧
    startGameFinish envProd stLobbyEx "s1" quiz1ex =
      ⟨stActiveEx,
        [.toSession "s1" (.gameStarted 1),
          .toSession "s1" (.question qPayloadEx)], .ok ()⟩ ∧
    startGameFinish envProd stActiveEx "s1" quiz1ex =
      ⟨stActiveEx,
        [.toSession "s1" (.gameStarted 1),
          .toSession "s1" (.question qPayloadEx)], .ok ()⟩ ∧
    handleStartGame envProd stActiveEx "h1" "s1" =
      ⟨stActiveEx, [], .err "game already started"⟩ := by
  exact ⟨rfl, by decide, by decide, by decide⟩

/-- A FINISHED session stores question index −1. -/
def stFinEx : St :=
  ⟨[⟨"s1", "quiz1", "host-user", SessionStatus.FINISHED, -1⟩], [quiz1ex],
    [hostConnEx], [], [], []⟩

/-- C5: NextQuestion on a FINISHED session is not rejected by a status
check; the handler reaches `quiz.Questions[-1]` and panics instead of
failing cleanly. -/
theorem nextQuestion_finished_crashes :
    handleNextQuestion envProd stFinEx "h1" "s1" =
      ⟨stFinEx, [], .crash "runtime error: index out of range"⟩ := by
  decide

/-- A leaderboard member whose player identity is 3 characters and has
no nickname entry. -/
def stShortEx : St := ⟨[], [], [], [], [(("s1", "bob"), 5)], []⟩

/-- The same member with a nickname present. -/
def stShortNickEx : St :=
  ⟨[], [], [], [], [(("s1", "bob"), 5)], [(("s1", "bob"), "Bobby")]⟩

/-- A member with a 9-character identity and no nickname. -/
def stLongEx : St := ⟨[], [], [], [], [(("s1", "charlie-9"), 5)], []⟩

/-- C9: the nickname fallback is the Go slice `userID[:8]`, which
panics when the identity is shorter than 8 bytes; `GetTopN` therefore
crashes on `"bob"` with no nickname, while it does return normally
(truncated identity, rank 1) for an identity of at least 8 characters,
and returns the stored nickname when one exists. -/
theorem getTopN_short_userid_crashes :
    getTopN stShortEx "s1" 10 =
      .crash "runtime error: slice bounds out of range" ∧
    getTopN stShortNickEx "s1" 10 = .ok [⟨"bob", "Bobby", 5, 1⟩] ∧
    getTopN stLongEx "s1" 10 = .ok [⟨"charlie-9", "charlie-", 5, 1⟩] := by
  decide

/-- A non-host connection, with and without the target session
existing. -/
def connPlayerEx : Player :=
  ⟨"s1", "p1", "player-two", "Paula", PlayerRole.PLAYER⟩

def stNoSessEx : St := ⟨[], [quiz1ex], [connPlayerEx], [], [], []⟩

def stLobbyPlayerEx : St :=
  ⟨[sessLobbyEx], [quiz1ex], [connPlayerEx], [], [], []⟩

/-- C8 (counterexample): `HandleStartGame` checks session existence and
status BEFORE the host-role check, so a non-host caller gets
"session not found" when the session is absent but the authorization
error when it exists in LOBBY — two runs differing only in the target
session produce different errors for the same non-host caller. -/
theorem startGame_nonhost_error_leaks_counterexample :
    (handleStartGame envProd stNoSessEx "p1" "s1").result =
      .err "session not found" ∧
    (handleStartGame envProd stLobbyPlayerEx "p1" "s1").result =
      .err "only the host can start the game" ∧
    (handleStartGame envProd stNoSessEx "p1" "s1").result ≠
      (handleStartGame envProd stLobbyPlayerEx "p1" "s1").result := by
  decide

/-- C8 (amended part): for NextQuestion and EndGame the host check does
come first: any caller whose registry role is not HOST is rejected with
the fixed authorization error, with no mutation and no emission, before
any session or quiz lookup — so the error cannot depend on whether the
session exists or what status it is in. -/
theorem host_only_actions_generic_error (env : NetEnv) (st : St)
    (cid sid : String) (conn : Player)
    (hconn : getConnectionByConnectionId st cid = some conn)
    (hrole : conn.role ≠ PlayerRole.HOST) :
    handleNextQuestion env st cid sid =
      ⟨st, [], .err "only the host can advance questions"⟩ ∧
    handleEndGame env st cid sid =
      ⟨st, [], .err "only the host can end the game"⟩ := by
  have hb : (conn.role != PlayerRole.HOST) = true := by
    simp [bne_iff_ne, hrole]
  constructor
  · simp only [handleNextQuestion, hconn, hb, if_true]
  · simp only [handleEndGame, hconn, hb, if_true]

/-- C8 (witness): the amended theorem applied to the concrete non-host
caller `p1` on a LOBBY session. -/
theorem host_only_actions_generic_error_witness :
    handleNextQuestion envProd stLobbyPlayerEx "p1" "s1" =
      ⟨stLobbyPlayerEx, [], .err "only the host can advance questions"⟩ ∧
    handleEndGame envProd stLobbyPlayerEx "p1" "s1" =
      ⟨stLobbyPlayerEx, [], .err "only the host can end the game"⟩ :=
  host_only_actions_generic_error envProd stLobbyPlayerEx "p1" "s1"
    connPlayerEx (by decide) (by decide)

/-! ## C6: broadcast failure handling -/

/-- A local hub knowing one connection `c1` in session `s1`. -/
def hub1ex : Hub := ⟨[("c1", "s1")], [("s1", ["c1"])]⟩

/-- Local mode with every transport write failing. -/
def envLocalFail : NetEnv := ⟨"local", some hub1ex, fun _ => false⟩

/-- The store after `c2` joins `stLobbyEx` anonymously. -/
def stJoinedEx : St :=
  ⟨[sessLobbyEx], [quiz1ex],
    [⟨"s1", "c2", "anonymous", "Paula", PlayerRole.PLAYER⟩, hostConnEx], [],
    [(("s1", "anonymous"), 0)], [(("s1", "anonymous"), "Paula")]⟩

/-- C6 (counterexample): with one hub connection whose delivery fails,
`Hub.BroadcastToSession` returns the delivery error rather than
success, and `HandleJoinSession` — its mutations already committed, as
the returned store shows — reports that failure to the caller. -/
theorem broadcast_failure_propagates_counterexample :
    hubBroadcastToSession hub1ex (fun _ => false) "s1" =
      .error "write failed" ∧
    handleJoinSession envLocalFail stLobbyEx none "c2" ⟨"s1", "Paula"⟩ =
      ⟨stJoinedEx, [.toSession "s1" (.playerJoined "Paula" 1)],
        .err "write failed"⟩ := by
  exact ⟨rfl, by decide⟩

/-- C6 (amended part): a session unknown to the hub broadcasts as
success; the production fan-out path reports success whatever the
deliveries did; the local broadcast never mutates the store; and the
store a local-mode JoinSession returns — its committed mutations — does
not depend on the transport delivery outcomes. -/
theorem broadcast_failure_amended (h : Hub) (fOk gOk : String → Bool)
    (env : NetEnv) (st stB : St) (claims : Option Claims) (cid : String)
    (pl : JoinSessionPayload) (sid sidB : String)
    (hmiss : h.sessions.find? (fun e => e.1 == sid) = none)
    (hprod : env.envName ≠ "local") :
    hubBroadcastToSession h fOk sid = .ok () ∧
    (broadcasterBroadcast env stB sidB).2 = .ok () ∧
    (broadcasterBroadcast ⟨"local", some h, fOk⟩ stB sidB).1 = stB ∧
    (handleJoinSession ⟨"local", some h, fOk⟩ st claims cid pl).st =
      (handleJoinSession ⟨"local", some h, gOk⟩ st claims cid pl).st := by
  refine ⟨?_, ?_, rfl, ?_⟩
  · simp only [hubBroadcastToSession, hmiss]
  · have hne : (env.envName == "local") = false := by
      simp [hprod]
    simp only [broadcasterBroadcast, hne, Bool.false_eq_true, if_false]
  · unfold handleJoinSession
    cases hn : (pl.nickname.length == 0 || decide (pl.nickname.length > 20))
    · simp only [Bool.false_eq_true, if_false]
      cases hs : getSession st pl.sessionId with
      | none => rfl
      | some s =>
        cases hst : (s.status != SessionStatus.LOBBY)
        · simp only [hst, Bool.false_eq_true, if_false]
          by_cases hc : getPlayerCountBySession st pl.sessionId ≥ 2000
          · simp only [if_pos hc]
          · simp only [if_neg hc]
            rfl
        · simp only [hst, if_true]
    · rfl

/-- C6 (witness): the amended theorem applied to the concrete hub and
stores. -/
theorem broadcast_failure_amended_witness :
    hubBroadcastToSession hub1ex (fun _ => false) "nosuch" = .ok () ∧
    (broadcasterBroadcast envProd stLobbyEx "s1").2 = .ok () ∧
    (broadcasterBroadcast ⟨"local", some hub1ex, fun _ => false⟩ stLobbyEx
      "s1").1 = stLobbyEx ∧
    (handleJoinSession ⟨"local", some hub1ex, fun _ => false⟩ stLobbyEx none
      "c2" ⟨"s1", "Paula"⟩).st =
      (handleJoinSession ⟨"local", some hub1ex, fun _ => true⟩ stLobbyEx none
        "c2" ⟨"s1", "Paula"⟩).st :=
  broadcast_failure_amended hub1ex (fun _ => false) (fun _ => true) envProd
    stLobbyEx stLobbyEx none "c2" ⟨"s1", "Paula"⟩ "nosuch" "s1" (by decide)
    (by decide)

/-! ## C7: event ordering of NextQuestion -/

lemma deleteConnection_sessions (st : St) (sid cid : String) :
    (deleteConnection st sid cid).sessions = st.sessions := rfl

lemma broadcastFold_preserves (env : NetEnv) (sid : String) :
    ∀ (conns : List Player) (st : St),
      ((conns.foldl (fun acc c =>
        match broadcasterSend env c.connectionId with
        | .ok _ => acc
        | .error _ => deleteConnection acc sid c.connectionId) st).sessions =
          st.sessions ∧
       (conns.foldl (fun acc c =>
        match broadcasterSend env c.connectionId with
        | .ok _ => acc
        | .error _ => deleteConnection acc sid c.connectionId) st).scores =
          st.scores ∧
       (conns.foldl (fun acc c =>
        match broadcasterSend env c.connectionId with
        | .ok _ => acc
        | .error _ => deleteConnection acc sid c.connectionId) st).nicknames =
          st.nicknames) := by
  intro conns
  induction conns with
  | nil => intro st; exact ⟨rfl, rfl, rfl⟩
  | cons c rest ih =>
    intro st
    simp only [List.foldl_cons]
    cases hbs : broadcasterSend env c.connectionId with
    | ok u => exact ih st
    | error e => exact ih (deleteConnection st sid c.connectionId)

/-- Broadcast fan-out touches only the connections table: sessions,
scores and nicknames are untouched on both the local and the production
path. -/
lemma broadcast_preserves (env : NetEnv) (st : St) (sid : String) :
    (broadcasterBroadcast env st sid).1.sessions = st.sessions ∧
    (broadcasterBroadcast env st sid).1.scores = st.scores ∧
    (broadcasterBroadcast env st sid).1.nicknames = st.nicknames := by
  unfold broadcasterBroadcast
  cases he : (env.envName == "local")
  · simp only [Bool.false_eq_true, if_false]
    exact broadcastFold_preserves env sid (getConnectionsBySession st sid) st
  · simp only [if_true]
    cases hh : env.hub with
    | some h => exact ⟨rfl, rfl, rfl⟩
    | none =>
      exact broadcastFold_preserves env sid (getConnectionsBySession st sid) st

lemma updateSessionStatus_preserves (st : St) (sid : String)
    (status : SessionStatus) (i : ℤ) :
    (updateSessionStatus st sid status i).scores = st.scores ∧
    (updateSessionStatus st sid status i).nicknames = st.nicknames := ⟨rfl, rfl⟩

lemma getSession_congr (st st2 : St) (sid : String)
    (h : st.sessions = st2.sessions) : getSession st sid = getSession st2 sid := by
  unfold getSession
  rw [h]

lemma resolveEntries_congr (st st2 : St) (sid : String)
    (h : st.nicknames = st2.nicknames) :
    ∀ (l : List (String × ℤ)) (i : ℤ),
      resolveEntries st sid l i = resolveEntries st2 sid l i := by
  intro l
  induction l with
  | nil => intro i; rfl
  | cons e rest ih =>
    intro i
    obtain ⟨uid, sc⟩ := e
    have hn : nicknameOf st sid uid = nicknameOf st2 sid uid := by
      unfold nicknameOf
      rw [h]
    simp only [resolveEntries, hn, ih (i + 1)]

lemma getTopN_congr (st st2 : St) (sid : String) (n : ℤ)
    (hs : st.scores = st2.scores) (hn : st.nicknames = st2.nicknames) :
    getTopN st sid n = getTopN st2 sid n := by
  unfold getTopN
  have hss : sessionScores st sid = sessionScores st2 sid := by
    unfold sessionScores
    rw [hs]
  rw [hss, resolveEntries_congr st st2 sid hn]

lemma find?_map_update (sid : String) (status : SessionStatus) (i : ℤ) :
    ∀ (l : List Session) (s : Session),
      l.find? (fun x => x.sessionId == sid) = some s →
      (l.map (fun x => if x.sessionId == sid then
          { x with status := status, currentQuestionIndex := i }
        else x)).find? (fun x => x.sessionId == sid) =
        some { s with status := status, currentQuestionIndex := i } := by
  intro l
  induction l with
  | nil => intro s hs; simp [List.find?] at hs
  | cons x rest ih =>
    intro s hs
    cases hx : (x.sessionId == sid) with
    | true =>
      simp only [List.find?, hx] at hs
      obtain rfl : x = s := by injection hs
      simp only [List.map_cons, hx, if_true, List.find?]
    | false =>
      simp only [List.find?, hx] at hs
      simp only [List.map_cons, hx, Bool.false_eq_true, if_false,
        List.find?]
      exact ih s hs

lemma getSession_update (st : St) (sid : String) (s : Session)
    (status : SessionStatus) (i : ℤ)
    (hs : getSession st sid = some s) :
    getSession (updateSessionStatus st sid status i) sid =
      some { s with status := status, currentQuestionIndex := i } := by
  unfold getSession updateSessionStatus at *
  exact find?_map_update sid status i st.sessions s hs

lemma listGetInt_nonneg {α : Type} {xs : List α} {i : ℤ} {a : α}
    (h : listGetInt xs i = some a) : 0 ≤ i := by
  by_cases hi : i < 0
  · simp [listGetInt, hi] at h
  · omega

lemma listGetInt_of_lt {α : Type} (xs : List α) (i : ℤ) (h0 : 0 ≤ i)
    (hlt : i < (xs.length : ℤ)) : ∃ a, listGetInt xs i = some a := by
  have hn : i.toNat < xs.length := by omega
  exact ⟨xs.get ⟨i.toNat, hn⟩, by
    simp [listGetInt, not_lt.mpr h0, List.get?_eq_get hn]⟩

/-- C7: whenever a NextQuestion action from a HOST connection runs on a
resolvable session and quiz with a valid current question index (and the
leaderboard reads return cleanly), the emitted sequence opens with the
`question_ended` event carrying the current question's correct option id
and the top-10 leaderboard; only after it comes either the `game_over`
event with the session moved to FINISHED/−1 (when the next index is not
below the question count) or the next `question` event with the stored
index advanced — results always precede the next prompt. -/
theorem nextQuestion_results_before_prompt
    (env : NetEnv) (st : St) (cid sid : String) (conn : Player)
    (s : Session) (quiz : Quiz) (lb lb100 : List PlayerScore)
    (curQ : Question)
    (hconn : getConnectionByConnectionId st cid = some conn)
    (hrole : conn.role = PlayerRole.HOST)
    (hs : getSession st sid = some s)
    (hq : getQuiz st s.quizId = some quiz)
    (hlb : getTopN st sid 10 = .ok lb)
    (hlb100 : getTopN st sid 100 = .ok lb100)
    (hcur : listGetInt quiz.questions s.currentQuestionIndex = some curQ) :
    ((quiz.questions.length : ℤ) ≤ s.currentQuestionIndex + 1 →
      (handleNextQuestion env st cid sid).events =
        [.toSession sid (.questionEnded curQ.correctOptionId lb),
          .toSession sid (.gameOver lb100)] ∧
      getSession (handleNextQuestion env st cid sid).st sid =
        some { s with status := SessionStatus.FINISHED,
                      currentQuestionIndex := -1 }) ∧
    (s.currentQuestionIndex + 1 < (quiz.questions.length : ℤ) →
      ∃ q2, listGetInt quiz.questions (s.currentQuestionIndex + 1) = some q2 ∧
        (handleNextQuestion env st cid sid).events =
          [.toSession sid (.questionEnded curQ.correctOptionId lb),
            .toSession sid (.question ⟨s.currentQuestionIndex + 1,
              (quiz.questions.length : ℤ), q2.text, q2.options,
              q2.timeLimitSeconds * 1000, q2.points⟩)] ∧
        getSession (handleNextQuestion env st cid sid).st sid =
          some { s with status := SessionStatus.ACTIVE,
                        currentQuestionIndex := s.currentQuestionIndex + 1 }) := by
  have hroleb : (conn.role != PlayerRole.HOST) = false := by
    simp [hrole]
  unfold handleNextQuestion
  simp only [hconn, hroleb, Bool.false_eq_true, if_false, hs, hq, hlb, hcur]
  have hbp := broadcast_preserves env st sid
  constructor
  · intro hge
    rw [if_pos (by omega : s.currentQuestionIndex + 1 ≥ (quiz.questions.length : ℤ))]
    unfold endGame
    have hsessBC : getSession (broadcasterBroadcast env st sid).1 sid = some s :=
      (getSession_congr _ st sid hbp.1).trans hs
    have h100 : getTopN (updateSessionStatus (broadcasterBroadcast env st sid).1
        sid SessionStatus.FINISHED (-1)) sid 100 = .ok lb100 := by
      rw [getTopN_congr _ st sid 100
        ((updateSessionStatus_preserves _ _ _ _).1.trans hbp.2.1)
        ((updateSessionStatus_preserves _ _ _ _).2.trans hbp.2.2)]
      exact hlb100
    simp only [h100]
    refine ⟨by simp, ?_⟩
    have hbp2 := broadcast_preserves env
      (updateSessionStatus (broadcasterBroadcast env st sid).1 sid
        SessionStatus.FINISHED (-1)) sid
    rw [getSession_congr _ _ sid hbp2.1]
    exact getSession_update _ sid s SessionStatus.FINISHED (-1) hsessBC
  · intro hlt
    have h0 : 0 ≤ s.currentQuestionIndex + 1 := by
      have := listGetInt_nonneg hcur
      omega
    obtain ⟨q2, hq2⟩ :=
      listGetInt_of_lt quiz.questions (s.currentQuestionIndex + 1) h0 hlt
    refine ⟨q2, hq2, ?_⟩
    rw [if_neg (by omega : ¬ s.currentQuestionIndex + 1 ≥ (quiz.questions.length : ℤ))]
    unfold sendQuestion
    simp only [sendQuestionPayload, hq2, Option.map_some']
    refine ⟨by simp, ?_⟩
    have hsessBC : getSession (broadcasterBroadcast env st sid).1 sid = some s :=
      (getSession_congr _ st sid hbp.1).trans hs
    have hbp2 := broadcast_preserves env
      (updateSessionStatus (broadcasterBroadcast env st sid).1 sid
        SessionStatus.ACTIVE (s.currentQuestionIndex + 1)) sid
    rw [getSession_congr _ _ sid hbp2.1]
    exact getSession_update _ sid s SessionStatus.ACTIVE
      (s.currentQuestionIndex + 1) hsessBC

/-- A two-question quiz and an ACTIVE session on its first question. -/
def q2ex : Question :=
  ⟨"q2", "Second?", [⟨"optA", "A"⟩, ⟨"optB", "B"⟩], "optB", 10, 500⟩

def quiz2ex : Quiz :=
  ⟨"quiz2", "host-user", "Two questions", "d", [q1ex, q2ex]⟩

def sessActive2Ex : Session :=
  ⟨"s2", "quiz2", "host-user", SessionStatus.ACTIVE, 0⟩

def hostConn2Ex : Player := ⟨"s2", "h2", "host-user", "Host", PlayerRole.HOST⟩

def stActive2Ex : St := ⟨[sessActive2Ex], [quiz2ex], [hostConn2Ex], [], [], []⟩

/-- C7 (witness): the ordering theorem applied to the concrete
two-question session on question 0: `question_ended` for question 1,
then `question` for question 2, with the stored index advanced. -/
theorem nextQuestion_results_before_prompt_witness :
    ∃ qn, listGetInt quiz2ex.questions
        (sessActive2Ex.currentQuestionIndex + 1) = some qn ∧
      (handleNextQuestion envProd stActive2Ex "h2" "s2").events =
        [.toSession "s2" (.questionEnded q1ex.correctOptionId []),
          .toSession "s2" (.question ⟨sessActive2Ex.currentQuestionIndex + 1,
            (quiz2ex.questions.length : ℤ), qn.text, qn.options,
            qn.timeLimitSeconds * 1000, qn.points⟩)] ∧
      getSession (handleNextQuestion envProd stActive2Ex "h2" "s2").st "s2" =
        some { sessActive2Ex with
                status := SessionStatus.ACTIVE,
                currentQuestionIndex :=
                  sessActive2Ex.currentQuestionIndex + 1 } :=
  (nextQuestion_results_before_prompt envProd stActive2Ex "h2" "s2"
    hostConn2Ex sessActive2Ex quiz2ex [] [] q1ex rfl rfl rfl rfl rfl rfl
    rfl).2 (by decide)

/-! ## C4: redaction of the outbound question event

A small JSON value model for the serialized form of the event, following
the `encoding/json` field tags of the Go structs. -/

inductive Json where
  | str (s : String)
  | num (n : ℤ)
  | bool (b : Bool)
  | arr (elems : List Json)
  | obj (fields : List (String × Json))
deriving Repr

mutual

/-- All object keys occurring anywhere in a JSON value. -/
def Json.keysDeep : Json → List String
  | .str _ => []
  | .num _ => []
  | .bool _ => []
  | .arr xs => Json.keysDeepList xs
  | .obj fs => Json.keysDeepFields fs

def Json.keysDeepList : List Json → List String
  | [] => []
  | j :: js => Json.keysDeep j ++ Json.keysDeepList js

def Json.keysDeepFields : List (String × Json) → List String
  | [] => []
  | (k, v) :: fs => k :: (Json.keysDeep v ++ Json.keysDeepFields fs)

end

/-- Serialization of `models.Option` (json tags `id`, `text`). -/
def QOption.toJson (o : QOption) : Json :=
  .obj [("id", .str o.id), ("text", .str o.text)]

/-- Serialization of `models.QuestionPayload` per its json tags. -/
def QuestionPayload.toJson (p : QuestionPayload) : Json :=
  .obj [("questionIndex", .num p.questionIndex),
        ("totalQuestions", .num p.totalQuestions),
        ("text", .str p.text),
        ("options", .arr (p.options.map QOption.toJson)),
        ("timeLimitMs", .num p.timeLimitMs),
        ("points", .num p.points)]

/-- The serialized `models.WSOutbound` envelope of a question event. -/
def questionEventJson (p : QuestionPayload) : Json :=
  .obj [("type", .str "question"), ("payload", QuestionPayload.toJson p)]

/-- Two questions that may differ only in which option is marked
correct. -/
def Question.sameExceptCorrect (q r : Question) : Bool :=
  q.questionId == r.questionId && q.text == r.text &&
    q.options == r.options && q.timeLimitSeconds == r.timeLimitSeconds &&
    q.points == r.points

/-- Two quizzes that may differ only in which options are marked
correct. -/
def Quiz.sameExceptCorrect (z w : Quiz) : Bool :=
  z.quizId == w.quizId && z.hostUserId == w.hostUserId &&
    z.title == w.title && z.description == w.description &&
    z.questions.length == w.questions.length &&
    (z.questions.zip w.questions).all
      (fun ab => Question.sameExceptCorrect ab.1 ab.2)

lemma zipAll_get? :
    ∀ (xs ys : List Question), xs.length = ys.length →
      ((xs.zip ys).all fun ab => Question.sameExceptCorrect ab.1 ab.2)
        = true →
      ∀ n : ℕ,
        (xs.get? n = none ∧ ys.get? n = none) ∨
        (∃ a b, xs.get? n = some a ∧ ys.get? n = some b ∧
          Question.sameExceptCorrect a b = true) := by
  intro xs
  induction xs with
  | nil =>
    intro ys hlen hall n
    cases ys with
    | nil => exact Or.inl ⟨rfl, rfl⟩
    | cons y ys => simp at hlen
  | cons x xs ih =>
    intro ys hlen hall n
    cases ys with
    | nil => simp at hlen
    | cons y ys =>
      simp only [List.zip_cons_cons, List.all_cons, Bool.and_eq_true]
        at hall
      cases n with
      | zero => exact Or.inr ⟨x, y, rfl, rfl, hall.1⟩
      | succ m =>
        have hlen2 : xs.length = ys.length := by
          simpa using hlen
        exact ih ys hlen2 hall.2 m

lemma options_keys_no_correct (os : List QOption) :
    "correctOptionId" ∉ Json.keysDeepList (os.map QOption.toJson) := by
  induction os with
  | nil => simp [Json.keysDeepList]
  | cons o rest ih =>
    simp only [List.map_cons, Json.keysDeepList, QOption.toJson,
      Json.keysDeep, Json.keysDeepFields, List.append_nil, List.nil_append,
      List.mem_append, List.mem_cons, List.not_mem_nil]
    intro h
    rcases h with h | h
    · rcases h with h | h | h
      · exact absurd h (by decide)
      · exact absurd h (by decide)
      · simp at h
    · exact ih h

/-- C4: the outbound `question` event is fully determined by the
redacted parts of the quiz — two quizzes that differ only in which
options are marked correct produce identical payloads at every index —
and its serialized form contains no `correctOptionId` key anywhere. -/
theorem question_event_redaction (z w : Quiz) (i : ℤ) (p : QuestionPayload)
    (hsame : Quiz.sameExceptCorrect z w = true) :
    sendQuestionPayload z i = sendQuestionPayload w i ∧
    (sendQuestionPayload z i = some p →
      "correctOptionId" ∉ Json.keysDeep (questionEventJson p)) := by
  constructor
  · simp only [Quiz.sameExceptCorrect, Bool.and_eq_true, beq_iff_eq]
      at hsame
    obtain ⟨⟨⟨⟨⟨-, -⟩, -⟩, -⟩, hlen⟩, hall⟩ := hsame
    unfold sendQuestionPayload listGetInt
    by_cases hi : i < 0
    · simp [hi]
    · simp only [if_neg hi]
      rcases zipAll_get? z.questions w.questions hlen hall i.toNat with
        h | ⟨a, b, ha, hb, hab⟩
      · rw [h.1, h.2]
        rfl
      · rw [ha, hb]
        simp only [Option.map_some']
        simp only [Question.sameExceptCorrect, Bool.and_eq_true,
          beq_iff_eq] at hab
        obtain ⟨⟨⟨⟨-, htext⟩, hopts⟩, htl⟩, hpts⟩ := hab
        rw [hlen, htext, hopts, htl, hpts]
  · intro _
    simp only [questionEventJson, QuestionPayload.toJson, Json.keysDeep,
      Json.keysDeepFields, Json.keysDeepList, List.append_nil,
      List.nil_append, List.mem_append, List.mem_cons, List.not_mem_nil]
    intro h
    rcases h with h | h | h | h | h | h | h
    · exact absurd h (by decide)
    · exact absurd h (by decide)
    · exact absurd h (by decide)
    · exact absurd h (by decide)
    · exact absurd h (by decide)
    · exact absurd h (by decide)
    · rcases h with h | h | h
      · exact options_keys_no_correct p.options h
      · exact absurd h (by decide)
      · rcases h with h | h
        · exact absurd h (by decide)
        · simp at h

/-- `quiz1ex` with the correct option flipped to `optB`. -/
def quizAltEx : Quiz :=
  ⟨"quiz1", "host-user", "Demo quiz", "demo",
    [⟨"q1", "Which option?", [⟨"optA", "A"⟩, ⟨"optB", "B"⟩], "optB", 20,
      1000⟩]⟩

/-- C4 (witness): the redaction theorem applied to two quizzes that
differ only in the correct option of their single question. -/
theorem question_event_redaction_witness :
    Quiz.sameExceptCorrect quiz1ex quizAltEx = true ∧
    sendQuestionPayload quiz1ex 0 = sendQuestionPayload quizAltEx 0 ∧
    "correctOptionId" ∉ Json.keysDeep (questionEventJson qPayloadEx) :=
  ⟨by decide,
    (question_event_redaction quiz1ex quizAltEx 0 qPayloadEx (by decide)).1,
    (question_event_redaction quiz1ex quizAltEx 0 qPayloadEx (by decide)).2
      (by decide)⟩

/-! ## C10: the anonymous identity -/

lemma broadcastFold_id (env : NetEnv) (sid : String)
    (hsend : ∀ cid, broadcasterSend env cid = .ok ()) :
    ∀ (conns : List Player) (st : St),
      conns.foldl (fun acc c =>
        match broadcasterSend env c.connectionId with
        | .ok _ => acc
        | .error _ => deleteConnection acc sid c.connectionId) st = st := by
  intro conns
  induction conns with
  | nil => intro st; rfl
  | cons c rest ih =>
    intro st
    simp only [List.foldl_cons, hsend c.connectionId]
    exact ih st

/-- In this model the broadcast never alters the store: the local path
leaves it untouched and every modelled send on the production path
reports success, so the pruning branch never runs. -/
lemma broadcast_st_id (env : NetEnv) (st : St) (sid : String) :
    (broadcasterBroadcast env st sid).1 = st := by
  unfold broadcasterBroadcast
  cases he : (env.envName == "local")
  · simp only [Bool.false_eq_true, if_false]
    exact broadcastFold_id env sid
      (fun cid => by unfold broadcasterSend; simp [he]) _ st
  · simp only [if_true]
    cases hh : env.hub with
    | some h => rfl
    | none =>
      exact broadcastFold_id env sid
        (fun cid => by unfold broadcasterSend; simp [he, hh]) _ st

lemma filter_after_remove {α : Type} (p : α → Bool) (l : List α) :
    (l.filter (fun a => !(p a))).filter p = [] := by
  induction l with
  | nil => rfl
  | cons a rest ih =>
    cases hp : p a
    · simp [List.filter, hp, ih]
    · simp [List.filter, hp, ih]

lemma incrementScore_answers (st : St) (sid uid : String) (d : ℤ) :
    (incrementScore st sid uid d).answers = st.answers := by
  unfold incrementScore
  cases h : st.scores.find? (fun e => e.1 == (sid, uid)) <;> rfl

lemma submitAnswerIncr_answers (st : St) (info : SubmitInfo) :
    (submitAnswerIncr st info).answers = st.answers := by
  unfold submitAnswerIncr
  by_cases h : info.pointsEarned > 0
  · simp [h, incrementScore_answers]
  · simp [h]

/-- C10: a JoinSession processed with no authentication claims in the
context registers the connection under the fixed identity
`"anonymous"`, with the leaderboard score keyed on
(session, "anonymous") — so every claimless join of a session shares
the single `"anonymous"` score/nickname entry (the store holds exactly
one such entry after any claimless join).  Consequently, once any
anonymous connection has stored an Answer for a question, a
SubmitAnswer from a different connection that resolves to the
`"anonymous"` identity is rejected as already answered, with no state
change; and a successful anonymous submission does leave such a stored
Answer behind. -/
theorem anonymous_join_shared_identity :
    (∀ (env : NetEnv) (st : St) (cid : String) (pl : JoinSessionPayload)
        (s : Session),
      1 ≤ pl.nickname.length → pl.nickname.length ≤ 20 →
      getSession st pl.sessionId = some s →
      s.status = SessionStatus.LOBBY →
      getPlayerCountBySession st pl.sessionId < 2000 →
      getConnectionByConnectionId
          (handleJoinSession env st none cid pl).st cid =
        some ⟨pl.sessionId, cid, "anonymous", pl.nickname,
          PlayerRole.PLAYER⟩ ∧
      ((handleJoinSession env st none cid pl).st.scores.filter
        (fun e => e.1 == (pl.sessionId, "anonymous"))).length = 1 ∧
      getPlayerScore (handleJoinSession env st none cid pl).st
        pl.sessionId "anonymous" = 0) ∧
    (∀ (env : NetEnv) (st : St) (cid : String) (pl : SubmitAnswerPayload)
        (conn : Player) (s : Session) (a : Answer),
      getConnectionByConnectionId st cid = some conn →
      conn.userId = "anonymous" →
      getSession st conn.sessionId = some s →
      s.status = SessionStatus.ACTIVE →
      getAnswer st conn.sessionId "anonymous" pl.questionId = some a →
      handleSubmitAnswer env st cid pl =
        ⟨st, [], .err "already answered this question"⟩) ∧
    (∀ (env : NetEnv) (st : St) (cid : String) (pl : SubmitAnswerPayload)
        (info : SubmitInfo),
      submitAnswerCheck st cid pl = .ok info →
      (getAnswer (handleSubmitAnswer env st cid pl).st
        info.conn.sessionId info.conn.userId pl.questionId).isSome) := by
  refine ⟨?_, ?_, ?_⟩
  · intro env st cid pl s h1 h2 hs hlobby hcount
    have hn : (pl.nickname.length == 0 ||
        decide (pl.nickname.length > 20)) = false := by
      simp only [Bool.or_eq_false_iff, beq_eq_false_iff_ne,
        decide_eq_false_iff_not]
      omega
    have hst : (s.status != SessionStatus.LOBBY) = false := by
      simp [hlobby]
    have hc : ¬ getPlayerCountBySession st pl.sessionId ≥ 2000 := by
      omega
    unfold handleJoinSession
    simp only [hn, Bool.false_eq_true, if_false, hs, hst, if_neg hc,
      broadcast_st_id]
    refine ⟨?_, ?_, ?_⟩
    · unfold getConnectionByConnectionId setNickname upsertScore
        putConnection
      simp [List.find?]
    · unfold setNickname upsertScore putConnection
      simp only [List.filter]
      rw [show (((pl.sessionId, "anonymous") : String × String) ==
          (pl.sessionId, "anonymous")) = true from by simp]
      rw [filter_after_remove]
      rfl
    · unfold getPlayerScore setNickname upsertScore putConnection
      simp [List.find?]
  · intro env st cid pl conn s a hconn huser hs hact hans
    have hst : (s.status != SessionStatus.ACTIVE) = false := by
      simp [hact]
    have hans2 : getAnswer st conn.sessionId conn.userId pl.questionId =
        some a := by
      rw [huser]
      exact hans
    unfold handleSubmitAnswer submitAnswerCheck
    simp only [hconn, hs, hst, Bool.false_eq_true, if_false, hans2]
  · intro env st cid pl info hcheck
    unfold handleSubmitAnswer
    simp only [hcheck]
    unfold getAnswer
    rw [submitAnswerIncr_answers]
    unfold submitAnswerWrite putAnswer
    simp [List.find?]

/-- Two connections that resolved to the `"anonymous"` identity, an
ACTIVE session, and the same store with one anonymous Answer stored. -/
def connAnonA : Player := ⟨"s1", "cA", "anonymous", "Paula", PlayerRole.PLAYER⟩

def connAnonB : Player := ⟨"s1", "cB", "anonymous", "Pia", PlayerRole.PLAYER⟩

def stAnonEx : St :=
  ⟨[sess1ex], [quiz1ex], [connAnonA, connAnonB], [],
    [(("s1", "anonymous"), 0)], [(("s1", "anonymous"), "Pia")]⟩

def ansAnonEx : Answer :=
  ⟨"s1", "anonymous#q1", "q1", "anonymous", "optA", true, 5000, 1375⟩

def stAnonAnsEx : St :=
  ⟨[sess1ex], [quiz1ex], [connAnonA, connAnonB], [ansAnonEx],
    [(("s1", "anonymous"), 1375)], [(("s1", "anonymous"), "Pia")]⟩

/-- C10 (witness): the theorem applied to a concrete claimless join, a
concrete rejected second anonymous submission, and a concrete first
anonymous submission that leaves the stored Answer behind. -/
theorem anonymous_join_shared_identity_witness :
    getConnectionByConnectionId
        (handleJoinSession envProd stLobbyEx none "c2" ⟨"s1", "Paula"⟩).st
        "c2" =
      some ⟨"s1", "c2", "anonymous", "Paula", PlayerRole.PLAYER⟩ ∧
    handleSubmitAnswer envProd stAnonAnsEx "cB" plex =
      ⟨stAnonAnsEx, [], .err "already answered this question"⟩ ∧
    (getAnswer (handleSubmitAnswer envProd stAnonEx "cA" plex).st "s1"
      "anonymous" "q1").isSome :=
  ⟨(anonymous_join_shared_identity.1 envProd stLobbyEx "c2" ⟨"s1", "Paula"⟩
      sessLobbyEx (by decide) (by decide) rfl rfl (by decide)).1,
    anonymous_join_shared_identity.2.1 envProd stAnonAnsEx "cB" plex
      connAnonB sess1ex ansAnonEx rfl rfl rfl rfl rfl,
    anonymous_join_shared_identity.2.2 envProd stAnonEx "cA" plex
      ⟨connAnonA, q1ex, true, CalculateScore true 5000 20000 1000⟩ rfl⟩
